import Mathlib

/-!
Verification development for the cocopot WSGI microframework
(`cocopot/routing.py`, `cocopot/exceptions.py`, `cocopot/app.py`).

The Python sources are shallowly embedded: Python `dict`s become
insertion-ordered association lists (`pyGet`/`pySet` mirror `d.get(k)` and
`d[k] = v`), compiled route patterns become lists of segments (literal text
or a named capture group with one of the four built-in wildcard masks), and
raised exceptions become `Except` error values.
-/

namespace Cocopot

/-- `d.get(k)`: first binding wins, as in a Python dict (keys are unique
there; here uniqueness is maintained by `pySet`). -/
def pyGet {κ α : Type} [DecidableEq κ] : List (κ × α) → κ → Option α
  | [], _ => none
  | (k0, v) :: rest, k => if k0 = k then some v else pyGet rest k

/-- `d[k] = v`: replace the binding in place if `k` is present, else append
(Python dicts keep the original insertion position on re-assignment). -/
def pySet {κ α : Type} [DecidableEq κ] : List (κ × α) → κ → α → List (κ × α)
  | [], k, v => [(k, v)]
  | (k0, v0) :: rest, k, v =>
      if k0 = k then (k, v) :: rest else (k0, v0) :: pySet rest k v

/-- `dict(pairs)`: fold the pairs through `pySet` (later duplicate keys
overwrite the value but keep the first key position). -/
def pyDict {κ α : Type} [DecidableEq κ] (pairs : List (κ × α)) : List (κ × α) :=
  pairs.foldl (fun d kv => pySet d kv.1 kv.2) []

/-- Code-point comparison of strings, as Python's `<` on `str`. -/
def charsLe : List Char → List Char → Bool
  | [], _ => true
  | _ :: _, [] => false
  | a :: as, b :: bs => if a = b then charsLe as bs else decide (a < b)

def insertSorted (s : String) : List String → List String
  | [] => [s]
  | t :: ts => if charsLe s.data t.data then s :: t :: ts else t :: insertSorted s ts

/-- `sorted(keys)` for a list of strings (insertion sort; stable, and
Python's sort is code-point lexicographic on `str`). -/
def sortStrings (l : List String) : List String := l.foldr insertSorted []

/-- `str.upper()` restricted to ASCII, which is all the sources use for
HTTP method names. -/
def upperStr (s : String) : String := String.mk (s.data.map Char.toUpper)

/-- Python `repr` of a path string as used in the `NotFound` message
(`"Not found: " + repr(path)`); quoting is modelled, escaping of special
characters inside the path is not exercised by any rule here. -/
def pyrepr (s : String) : String := "'" ++ s ++ "'"

/-! ### Python values carried in `url_args` / `defaults`

Captured wildcard text is a `str`; the `int` filter produces a Python
`int`; the `float` filter produces a Python `float`, represented exactly as
`mantissa / 10 ^ scale` (the masks admit only decimal literals, no
exponents, so every accepted value is such a decimal). -/

inductive PVal : Type
  | vstr (s : String)
  | vint (n : Int)
  | vfloat (mantissa : Int) (scale : Nat)
deriving DecidableEq, Repr

/-- Value of Python's iteration/truthiness-relevant argument slot
`MethodNotAllowed.valid_methods`: the documented usage is a list of method
names, `None` is the default, and `routing.py` actually passes a plain
string (whose iteration yields its characters). -/
inductive PyVal : Type
  | pynone
  | pystr (s : String)
  | pylist (l : List String)
deriving DecidableEq, Repr

/-- Python truthiness for the three `valid_methods` shapes. -/
def pyTruthy : PyVal → Bool
  | .pynone => false
  | .pystr s => !(s = "")
  | .pylist l => !l.isEmpty

/-- `sep.join(v)`: joining a string iterates its characters; joining a
list iterates its elements. (`join(None)` would raise; `get_headers`
guards with truthiness first, so that case is unreachable.) -/
def pyJoin (sep : String) : PyVal → String
  | .pynone => ""
  | .pystr s => String.intercalate sep (s.data.map (fun c => String.mk [c]))
  | .pylist l => String.intercalate sep l

/-! ### Exceptions (`cocopot/exceptions.py`)

Only the classes the routing/dispatch code can raise are embedded. Each
carries its resolved `description` (the constructor stores the argument or
keeps the class default). `MethodNotAllowed.__init__(valid_methods=None,
description=None)` additionally stores its first positional argument in
`valid_methods`. -/

def badRequestDefaultDescription : String :=
  "The browser (or proxy) sent a request that this server could not understand."

def mnaDefaultDescription : String :=
  "The method is not allowed for the requested URL."

def iseDefaultDescription : String :=
  "The server encountered an internal error and was unable to complete your request.  Either the server is overloaded or there is an error in the application."

inductive HttpExcM : Type
  | badRequest (description : String)
  | notFound (description : String)
  | methodNotAllowed (validMethods : PyVal) (description : String)
  | internalServerError (description : String)
deriving DecidableEq, Repr

def HttpExcM.code : HttpExcM → Nat
  | .badRequest _ => 400
  | .notFound _ => 404
  | .methodNotAllowed _ _ => 405
  | .internalServerError _ => 500

def HttpExcM.description : HttpExcM → String
  | .badRequest d => d
  | .notFound d => d
  | .methodNotAllowed _ d => d
  | .internalServerError d => d

/-- `HTTPException.get_body` (`'%(description)s' % ...`). -/
def HttpExcM.getBody (e : HttpExcM) : String := e.description

/-- `get_headers`: the base class returns `[('Content-Type','text/plain')]`;
`MethodNotAllowed.get_headers` appends `('Allow', ', '.join(valid_methods))`
when `valid_methods` is truthy. -/
def HttpExcM.getHeaders : HttpExcM → List (String × String)
  | .methodNotAllowed v _ =>
      [("Content-Type", "text/plain")] ++
        (if pyTruthy v then [("Allow", pyJoin ", " v)] else [])
  | _ => [("Content-Type", "text/plain")]

/-- An exception in flight during dispatch: an `HTTPException`, an
arbitrary application exception (identified by a tag standing for the
Python object/class), or the builtin errors the dispatch code itself can
raise (`ValueError` from `make_response`, `KeyError` from an indexing
expression). -/
inductive Exc : Type
  | http (e : HttpExcM)
  | user (tag : Nat)
  | valueError (msg : String)
  | keyError
deriving DecidableEq, Repr

/-! ### Wildcard masks and pattern matching (`cocopot/routing.py`)

`Router.filters` maps converter names to regex fragments:
`string ↦ [^/]+`, `int ↦ -?\d+`, `float ↦ -?[\d.]+`, `path ↦ .+?`.
A compiled rule pattern `^(lit (?P<v>mask) lit ...)$` is embedded as a list
of segments, and matching reproduces the backtracking search of Python's
`re` on exactly these shapes: a greedy `+` class tries the longest prefix
of the maximal class run first, the lazy `.+?` tries the shortest first,
and `-?` consumes a leading `-` when present. (Python's `$` would also
accept a trailing newline before the end; no rule or claim here exercises
a path ending in a newline.) -/

inductive Mask : Type
  | mstring
  | mint
  | mfloat
  | mpath
deriving DecidableEq, Repr

inductive Seg : Type
  | slit (s : String)
  | sgroup (v : String) (m : Mask)
deriving DecidableEq, Repr

/-- Longest prefix whose characters all satisfy `p` (the maximal text a
`class+` quantifier could consume at this position). -/
def classRun (p : Char → Bool) : List Char → List Char
  | [] => []
  | c :: cs => if p c then c :: classRun p cs else []

/-- Nonempty prefixes of `run`, longest first (greedy `+` try order). -/
def takesDesc (run : List Char) : List (List Char) :=
  (List.range run.length).map (fun i => run.take (run.length - i))

/-- Nonempty prefixes of `run`, shortest first (lazy `+?` try order). -/
def takesAsc (run : List Char) : List (List Char) :=
  (List.range run.length).map (fun i => run.take (i + 1))

/-- Candidates for `-?class+`: a leading `-` is consumed greedily when
present ('-' belongs to neither class, so the minus-less branch then has
no candidates, and when no `-` leads the minus branch is empty). -/
def signedDesc (p : Char → Bool) : List Char → List (List Char)
  | '-' :: rest => (takesDesc (classRun p rest)).map (fun l => '-' :: l)
  | cs => takesDesc (classRun p cs)

/-- The candidate texts a group may consume from the head of `cs`, in the
order Python's backtracking tries them. -/
def groupCandidates : Mask → List Char → List (List Char)
  | .mstring, cs => takesDesc (classRun (fun c => c != '/') cs)
  | .mint, cs => signedDesc Char.isDigit cs
  | .mfloat, cs => signedDesc (fun c => c.isDigit || c == '.') cs
  | .mpath, cs => takesAsc (classRun (fun c => c != '\n') cs)

/-- Anchored match of a compiled pattern against the full path, returning
`groupdict()` (one binding per group, in group order) on success. -/
def matchSegs : List Seg → List Char → Option (List (String × String))
  | [], cs => if cs.isEmpty then some [] else none
  | .slit s :: rest, cs =>
      if s.data.isPrefixOf cs then matchSegs rest (cs.drop s.data.length) else none
  | .sgroup v m :: rest, cs =>
      (groupCandidates m cs).findSome? (fun chunk =>
        (matchSegs rest (cs.drop chunk.length)).map
          (fun gd => (v, String.mk chunk) :: gd))

/-! ### Rules and the Router (`cocopot/routing.py`)

A rule string is consumed as the token stream `Router._itertokens` yields
from it: maximal literal runs (always nonempty when yielded with text,
except for the single trailing empty literal a wildcard-final rule
produces, which `add` skips via `elif key:`) alternating with wildcards;
a wildcard written without a converter arrives with converter name
`"string"`, exactly as `_itertokens` substitutes it. -/

inductive Tok : Type
  | lit (s : String)
  | wild (conv : String) (var : String)
deriving DecidableEq, Repr

/-- Rendering of the token stream back to the rule string; for a rule with
no wildcards this is the original rule string, which is what
`self.static_routes[rule]` uses as the static key. -/
def renderRule : List Tok → String
  | [] => ""
  | .lit s :: ts => s ++ renderRule ts
  | .wild c v :: ts => "<" ++ c ++ ":" ++ v ++ ">" ++ renderRule ts

inductive FilterKind : Type
  | fint
  | ffloat
deriving DecidableEq, Repr

/-- The built-in `Router.filters` table: converter name to (mask,
`in_filter`). The `to_url` out-filters are dropped: they feed only the URL
`builder`, which `match` never consults. -/
def filtersLookup : String → Option (Mask × Option FilterKind)
  | "string" => some (.mstring, none)
  | "int" => some (.mint, some .fint)
  | "float" => some (.mfloat, some .ffloat)
  | "path" => some (.mpath, none)
  | _ => none

/-- One compiled rule's `rule_args` dict (minus the URL `builder` and the
bound `match` method, which is the pattern itself here). -/
structure RuleArgs : Type where
  endpoint : String
  rule : String
  filters : List (String × FilterKind)
  pattern : List Seg
  defaults : Option (List (String × PVal))
deriving DecidableEq, Repr

/-- One rule's method map `dict([(m.upper(), rule_args) for m in methods])`. -/
def mkMethodMap (methods : List String) (ra : RuleArgs) : List (String × RuleArgs) :=
  pyDict (methods.map (fun m => (upperStr m, ra)))

/-- The `for key, converter, variable in self._itertokens(rule)` loop of
`Router.add`: build the pattern segments, the `(variable, in_filter)`
list, and the `is_static` flag; `none` when a converter name is not in
`self.filters` (a `KeyError` at add time). -/
def compileTokens : List Tok → Option (List Seg × List (String × FilterKind) × Bool)
  | [] => some ([], [], true)
  | .lit s :: ts => do
      let (p, f, st) ← compileTokens ts
      if s = "" then some (p, f, st) else some (.slit s :: p, f, st)
  | .wild conv v :: ts => do
      let (p, f, _) ← compileTokens ts
      let (mask, inf) ← filtersLookup conv
      match inf with
      | some k => some (.sgroup v mask :: p, (v, k) :: f, false)
      | none => some (.sgroup v mask :: p, f, false)

/-- Group names of a pattern, in order. -/
def segVars : List Seg → List String
  | [] => []
  | .slit _ :: rest => segVars rest
  | .sgroup v _ :: rest => v :: segVars rest

/-- Duplicate check: `re.compile` rejects a pattern that defines the same
group name twice, which `add` converts to a `RouteSyntaxError`. -/
def hasDupVars (p : List Seg) : Bool := !decide (segVars p).Nodup

/-- The Router state. `dynamic_patterns` (the ordered pattern list) and
`dynamic_routes` (a dict keyed by the compiled pattern *object*, so two
textually equal patterns from separate `add` calls never collide) are
together embedded as one ordered list of (pattern, method map) pairs. -/
structure Router : Type where
  static_routes : List (String × List (String × RuleArgs))
  dynamic : List (List Seg × List (String × RuleArgs))
  strict_order : Bool
deriving DecidableEq, Repr

/-- `Router(strict=...)`. -/
def Router.empty (strict : Bool) : Router :=
  { static_routes := [], dynamic := [], strict_order := strict }

/-- `Router.add(rule, endpoint, methods, defaults)`; `none` embeds the
add-time exceptions (unknown converter, `RouteSyntaxError` from a
duplicate group name). -/
def Router.add (r : Router) (ruleToks : List Tok) (endpoint : String)
    (methods : List String) (defaults : Option (List (String × PVal))) :
    Option Router := do
  let (pattern, filters, isStatic) ← compileTokens ruleToks
  let ra : RuleArgs :=
    { endpoint := endpoint, rule := renderRule ruleToks, filters := filters,
      pattern := pattern, defaults := defaults }
  if isStatic && !r.strict_order then
    some { r with
      static_routes := pySet r.static_routes ra.rule (mkMethodMap methods ra) }
  else
    if hasDupVars pattern then none
    else some { r with dynamic := r.dynamic ++ [(pattern, mkMethodMap methods ra)] }

/-- The `for re_pattern in self.dynamic_patterns` scan: first pattern whose
anchored match succeeds wins (`break`), yielding that rule's method map and
the `groupdict()`. -/
def findDynamic : List (List Seg × List (String × RuleArgs)) → List Char →
    Option (List (String × RuleArgs) × List (String × String))
  | [], _ => none
  | (p, mm) :: rest, cs =>
      match matchSegs p cs with
      | some gd => some (mm, gd)
      | none => findDynamic rest cs

/-- `"Method not allowed. Allowed methods: %s" % ",".join(sorted(rule_args.keys()))`. -/
def allowMsg (mm : List (String × RuleArgs)) : String :=
  "Method not allowed. Allowed methods: " ++
    String.intercalate "," (sortStrings (mm.map Prod.fst))

/-- Decimal digits to a number (`int("007") = 7`). -/
def digitsToNat (cs : List Char) : Nat :=
  cs.foldl (fun a c => a * 10 + (c.toNat - '0'.toNat)) 0

/-- `int(x)` on a captured string. Only strings drawn from the `-?\d+` mask
reach this in the sources; other strings are rejected like `ValueError`. -/
def pyParseInt (s : String) : Option Int :=
  match s.data with
  | '-' :: rest =>
      if !rest.isEmpty && rest.all Char.isDigit
      then some (-(Int.ofNat (digitsToNat rest))) else none
  | cs =>
      if !cs.isEmpty && cs.all Char.isDigit
      then some (Int.ofNat (digitsToNat cs)) else none

/-- `float(x)` on a captured string from the `-?[\d.]+` mask: Python
accepts it exactly when it has at least one digit and at most one dot
(`float("..")` or `float(".")` raise `ValueError`); the exact decimal is
kept as mantissa and scale. -/
def pyParseFloat (s : String) : Option PVal :=
  let core : List Char → Bool → Option PVal := fun cs neg =>
    if cs.all (fun c => c.isDigit || c == '.') &&
        decide ((cs.filter (fun c => c == '.')).length ≤ 1) &&
        cs.any Char.isDigit then
      let mant : Int := Int.ofNat (digitsToNat (cs.filter Char.isDigit))
      let scale : Nat := ((cs.dropWhile (fun c => c != '.')).drop 1).length
      some (.vfloat (if neg then -mant else mant) scale)
    else none
  match s.data with
  | '-' :: rest => core rest true
  | cs => core cs false

/-- A wildcard in-filter applied to one captured value (`ValueError` is
`none`, surfaced as 400 by `match`); filters are only ever applied to the
captured strings of `groupdict()`. -/
def applyFilter : FilterKind → PVal → Option PVal
  | .fint, .vstr s => (pyParseInt s).map PVal.vint
  | .ffloat, .vstr s => pyParseFloat s
  | _, _ => none

/-- The `for name, wildcard_filter in filters:` loop of `Router.match`:
`url_args[name] = wildcard_filter(url_args[name])`, with a `ValueError`
re-raised as `BadRequest('Path has wrong format.')`; the `KeyError` a
missing name would raise escapes `match` uncaught (unreachable for routers
built through `add`, whose filter names all come from pattern groups). -/
def runFilters : List (String × FilterKind) → List (String × PVal) →
    Except Exc (List (String × PVal))
  | [], ua => .ok ua
  | (name, fk) :: rest, ua =>
      match pyGet ua name with
      | none => .error .keyError
      | some v =>
          match applyFilter fk v with
          | none => .error (.http (.badRequest "Path has wrong format."))
          | some v2 => runFilters rest (pySet ua name v2)

/-- The `for k, v in defaults.items():` loop: a default is written only
when its key is absent from the (growing) parameter dict. -/
def mergeDefaults (ua : List (String × PVal)) (ds : List (String × PVal)) :
    List (String × PVal) :=
  ds.foldl (fun acc kv => if (pyGet acc kv.1).isSome then acc else acc ++ [kv]) ua

/-- `Router.match(path, method)` (named `matchRoute` because `match` is a
Lean keyword). Mirrors the source line by line: static lookup first, with
Python truthiness (`if not rule_args:`) identifying both a missing path and
an empty method map; then the first-match dynamic scan; then 404; then the
(unnormalized) method lookup with 405; then filters and defaults. -/
def Router.matchRoute (r : Router) (path : String) (method : String) :
    Except Exc (String × List (String × PVal)) :=
  let s : List (String × RuleArgs) :=
    match pyGet r.static_routes path with
    | some mm => mm
    | none => []
  let hit : List (String × RuleArgs) × List (String × String) :=
    if s.isEmpty then
      match findDynamic r.dynamic path.data with
      | some (mm, gd) => (mm, gd)
      | none => ([], [])
    else (s, [])
  if hit.1.isEmpty then
    .error (.http (.notFound ("Not found: " ++ pyrepr path)))
  else
    match pyGet hit.1 method with
    | none => .error (.http (.methodNotAllowed (.pystr (allowMsg hit.1))
        mnaDefaultDescription))
    | some args =>
        match runFilters args.filters
            (hit.2.map (fun kv => (kv.1, PVal.vstr kv.2))) with
        | .error e => .error e
        | .ok ua2 =>
            .ok (args.endpoint,
              mergeDefaults ua2 (match args.defaults with
                | some d => d
                | none => []))

/-! ### Request context (`cocopot/app.py`, `RequestContext`)

The context stack itself (`_request_ctx_stack`, a `LocalStack`) lives in
`cocopot/globals.py` / `cocopot/local.py`, which are not among the sources;
its push/pop/top behaviour is modelled from the spec (a per-thread stack:
`push` pushes a frame, `pop` removes and returns the top). Python object
identity (`rv is self`) is modelled through a context id. The
`request.__enter__` / `request.__exit__` resource calls are no-ops for the
properties here. -/

structure ReqCtx : Type where
  ctxId : Nat
deriving DecidableEq, Repr

/-- `RequestContext.push`: push self onto the request-context stack.
Modelled from the spec: the `LocalStack` push appends the frame on top. -/
def ReqCtx.push (ctx : ReqCtx) (stack : List ReqCtx) : List ReqCtx :=
  ctx :: stack

/-- The fatal assertion in `RequestContext.pop`. -/
inductive PopError : Type
  | poppedWrongContext
deriving DecidableEq, Repr

/-- `RequestContext.pop(exc)`: `rv = _request_ctx_stack.pop()`, then
`assert rv is self, 'Popped wrong request context. ...'`. The stack pop is
modelled from the spec (remove and return the top frame); popping an empty
stack yields no frame, so the assertion also fails there. -/
def ReqCtx.pop (ctx : ReqCtx) (stack : List ReqCtx) :
    Except PopError (List ReqCtx) :=
  match stack with
  | [] => .error .poppedWrongContext
  | top :: rest =>
      if top.ctxId = ctx.ctxId then .ok rest else .error .poppedWrongContext

/-! ### Dispatcher (`cocopot/app.py`, class `Cocopot`)

Hooks and handlers are embedded by their observable effect on dispatch:
a before-request hook by the value it returns (`none` = Python `None`,
continue), an after-request hook as the identity transformation (no claim
observes a response rewrite), a teardown hook by an id so the invocation
trace can be recorded, an error handler by the value it returns, and a
view function by the value it returns or the exception it raises. -/

/-- A value the dispatch pipeline hands to `make_response`: a string
returned by a view or hook, an `HTTPException` instance (returned as a
value by `handle_http_exception` / `handle_exception`), or `None`. -/
inductive Rv : Type
  | rstr (s : String)
  | rexc (e : HttpExcM)
  | rnone
deriving DecidableEq, Repr

/-- A registered view function, by behaviour. -/
inductive ViewAct : Type
  | ret (s : String)
  | raiseExc (e : Exc)
deriving DecidableEq, Repr

structure Resp : Type where
  status : Nat
  headers : List (String × String)
  body : String
deriving DecidableEq, Repr

/-- `make_response(rv)` (from `cocopot/response.py`) for the single-value
shapes dispatch produces: `None` raises `ValueError`; a string becomes a
`Response` with the default status 200; an `HTTPException` becomes a
`Response` with its code, headers and body. -/
def make_response : Rv → Except Exc Resp
  | .rnone => .error (.valueError "View function did not return a response")
  | .rstr s => .ok { status := 200, headers := [], body := s }
  | .rexc e => .ok { status := e.code, headers := e.getHeaders, body := e.getBody }

structure Environ : Type where
  PATH_INFO : String
  REQUEST_METHOD : String
deriving DecidableEq, Repr

/-- The `Request` attributes dispatch reads and writes: `endpoint` has the
class-level default `''`; `full_dispatch_request` assigns `endpoint` and
`view_args` after a successful match. -/
structure RequestM : Type where
  environ : Environ
  endpoint : String
  view_args : List (String × PVal)
deriving DecidableEq, Repr

def RequestM.mkFrom (e : Environ) : RequestM :=
  { environ := e, endpoint := "", view_args := [] }

/-- Everything before the last dot (`s.rsplit('.', 1)[0]`). -/
def beforeLastDot (s : String) : String :=
  match (s.data.reverse.dropWhile (fun c => c != '.')) with
  | [] => s
  | _ :: rest => String.mk rest.reverse

/-- `Request.blueprint`: the endpoint's namespace before its last `.`, or
`None` when the endpoint has no dot (then the property returns `None` by
falling off the `if`). -/
def RequestM.blueprint (req : RequestM) : Option String :=
  if req.endpoint.data.contains '.' then some (beforeLastDot req.endpoint)
  else none

/-- `error_handler_spec[key]`: a dict whose integer keys map status codes
to handlers and whose `None` key holds the `(typecheck, handler)` list for
arbitrary exceptions; a registered exception class is modelled by the tag
of the user exceptions it matches. -/
structure CodeHandlers : Type where
  byCode : List (Nat × Rv)
  byType : List (Nat × Rv)
deriving DecidableEq, Repr

structure AppModel : Type where
  router : Router
  view_functions : List (String × ViewAct)
  before_request_funcs : List (Option String × List (Option Rv))
  after_request_funcs : List (Option String × List Unit)
  teardown_request_funcs : List (Option String × List Nat)
  error_handler_spec : List (Option String × CodeHandlers)
deriving DecidableEq, Repr

/-- `Cocopot.__init__`: empty registries, a non-strict router, and
`error_handler_spec = {None: {}}`. -/
def AppModel.init : AppModel :=
  { router := Router.empty false, view_functions := [],
    before_request_funcs := [], after_request_funcs := [],
    teardown_request_funcs := [],
    error_handler_spec := [(none, { byCode := [], byType := [] })] }

/-- `preprocess_request`: global before-hooks, then the matched blueprint's
(when registered), first non-`None` return value short-circuits. -/
def preprocess_request (app : AppModel) (req : RequestM) : Option Rv :=
  let funcs : List (Option Rv) :=
    (match pyGet app.before_request_funcs none with
      | some l => l
      | none => []) ++
    (match req.blueprint with
      | some b =>
          match pyGet app.before_request_funcs (some b) with
          | some l => l
          | none => []
      | none => [])
  funcs.findSome? id

/-- `process_response`: blueprint-scoped after-hooks first, then global
ones, each transforming the response (modelled as identity). -/
def process_response (app : AppModel) (req : RequestM) (resp : Resp) : Resp :=
  let funcs : List Unit :=
    (match req.blueprint with
      | some b =>
          match pyGet app.after_request_funcs (some b) with
          | some l => l
          | none => []
      | none => []) ++
    (match pyGet app.after_request_funcs none with
      | some l => l
      | none => [])
  funcs.foldl (fun r _ => r) resp

/-- `handle_http_exception`: the blueprint's code-keyed handler when the
blueprint's handler dict is truthy and has the code, else the global
code-keyed handler, else the exception itself is returned as the response
value. -/
def handle_http_exception (app : AppModel) (req : RequestM) (e : HttpExcM) : Rv :=
  let handlers := pyGet app.error_handler_spec req.blueprint
  let handler : Option Rv :=
    match handlers with
    | some hs =>
        if (!hs.byCode.isEmpty || !hs.byType.isEmpty) &&
            (pyGet hs.byCode e.code).isSome then
          pyGet hs.byCode e.code
        else
          (pyGet app.error_handler_spec none).bind
            (fun h0 => pyGet h0.byCode e.code)
    | none =>
        (pyGet app.error_handler_spec none).bind
          (fun h0 => pyGet h0.byCode e.code)
  match handler with
  | none => .rexc e
  | some rv => rv

/-- Which registered exception classes a raised exception satisfies
`isinstance` for: a user exception matches the handler registered under
its tag; the interpreter-raised `ValueError`/`KeyError` match no handler
registered in the claims' scenarios. -/
def excTag : Exc → Option Nat
  | .user t => some t
  | _ => none

/-- `handle_user_exception`: `HTTPException`s go to `handle_http_exception`;
otherwise the blueprint's `(typecheck, handler)` pairs are scanned, then
the global ones, and with no match the exception is re-raised. -/
def handle_user_exception (app : AppModel) (req : RequestM) (e : Exc) :
    Except Exc Rv :=
  match e with
  | .http h => .ok (handle_http_exception app req h)
  | _ =>
      let bph : List (Nat × Rv) :=
        match pyGet app.error_handler_spec req.blueprint with
        | some hs => hs.byType
        | none => []
      let apph : List (Nat × Rv) :=
        match pyGet app.error_handler_spec none with
        | some hs => hs.byType
        | none => []
      match (bph ++ apph).findSome?
          (fun th => if excTag e = some th.1 then some th.2 else none) with
      | some rv => .ok rv
      | none => .error e

/-- `handle_exception`: the registered 500 handler's value, or a fresh
`InternalServerError()`. -/
def handle_exception (app : AppModel) (e : Exc) : Rv :=
  match (pyGet app.error_handler_spec none).bind
      (fun h0 => pyGet h0.byCode 500) with
  | none => .rexc (.internalServerError iseDefaultDescription)
  | some rv => rv

/-- `full_dispatch_request`. The decisive call is
`self.router.match(to_unicode(req.environ['PATH_INFO']))` — only the path
is passed, so `match`'s `method` parameter keeps its default `'GET'`
whatever `REQUEST_METHOD` the environment carries. The mutated request
(endpoint/view_args assignments survive an exception) is returned
alongside the outcome because the teardown phase reads it. -/
def full_dispatch_request (app : AppModel) (req : RequestM) :
    Except Exc Resp × RequestM :=
  let inner : Except Exc Rv × RequestM :=
    match app.router.matchRoute req.environ.PATH_INFO "GET" with
    | .error e => (handle_user_exception app req e, req)
    | .ok epArgs =>
        let req2 : RequestM :=
          { req with endpoint := epArgs.1, view_args := epArgs.2 }
        let rv0 : Except Exc Rv :=
          match preprocess_request app req2 with
          | some rv => .ok rv
          | none =>
              match pyGet app.view_functions req2.endpoint with
              | none => .error .keyError
              | some (.ret s) => .ok (.rstr s)
              | some (.raiseExc e) => .error e
        match rv0 with
        | .ok rv => (.ok rv, req2)
        | .error e => (handle_user_exception app req2 e, req2)
  match inner with
  | (.error e, req2) => (.error e, req2)
  | (.ok rv, req2) =>
      match make_response rv with
      | .error e => (.error e, req2)
      | .ok resp => (.ok (process_response app req2 resp), req2)

/-- `do_teardown_request(exc)`: the global teardown hooks first
(`self.teardown_request_funcs.get(None, ())`), then the blueprint-scoped
ones chained after them, each called with the captured exception; the
result is the invocation trace. (`sys.exc_info()` fallback is the
identity here: the dispatcher always passes the captured error.) -/
def do_teardown_request (app : AppModel) (req : RequestM) (exc : Option Exc) :
    List (Nat × Option Exc) :=
  let funcs : List Nat :=
    (match pyGet app.teardown_request_funcs none with
      | some l => l
      | none => []) ++
    (match req.blueprint with
      | some b =>
          match pyGet app.teardown_request_funcs (some b) with
          | some l => l
          | none => []
      | none => [])
  funcs.map (fun f => (f, exc))

/-- View of an `Except` as a `Sum`, used only to decide equality of
outcomes. -/
def exceptToSum {ε α : Type} : Except ε α → Sum ε α
  | .error e => .inl e
  | .ok a => .inr a

instance {ε α : Type} [DecidableEq ε] [DecidableEq α] :
    DecidableEq (Except ε α) := fun a b =>
  decidable_of_iff (exceptToSum a = exceptToSum b)
    (by cases a <;> cases b <;> simp [exceptToSum])

structure WsgiOutcome : Type where
  result : Except Exc Resp
  teardown : List (Nat × Option Exc)
  error : Option Exc
deriving DecidableEq, Repr

/-- `wsgi_app(environ, start_response)`: construct the request, push a
context, dispatch; an escaped exception is captured, logged, and converted
through `handle_exception` into a (generic 500) response; the `finally`
block runs `do_teardown_request(error)` and pops the context in every
case, before the response is returned. -/
def wsgi_app (app : AppModel) (environ : Environ) : WsgiOutcome :=
  let req := RequestM.mkFrom environ
  let dres := full_dispatch_request app req
  let resAndErr : Except Exc Resp × Option Exc :=
    match dres.1 with
    | .ok resp => (.ok resp, none)
    | .error e =>
        match make_response (handle_exception app e) with
        | .ok resp => (.ok resp, some e)
        | .error e2 => (.error e2, some e)
  { result := resAndErr.1,
    teardown := do_teardown_request app dres.2 resAndErr.2,
    error := resAndErr.2 }

/-! ### Dictionary lemmas -/

theorem pyGet_pySet {κ α : Type} [DecidableEq κ] (d : List (κ × α)) (k k1 : κ)
    (v : α) :
    pyGet (pySet d k v) k1 = if k = k1 then some v else pyGet d k1 := by
  induction d with
  | nil => simp [pySet, pyGet]
  | cons kv rest ih =>
      obtain ⟨k0, v0⟩ := kv
      by_cases h0 : k0 = k
      · subst h0
        simp only [pySet, if_pos rfl, pyGet]
        by_cases h1 : k0 = k1 <;> simp [h1]
      · simp only [pySet, if_neg h0]
        by_cases h1 : k0 = k1
        · subst h1
          have hne : ¬ k = k0 := fun h => h0 h.symm
          simp [pyGet, if_neg hne, h0]
        · simp [pyGet, if_neg h1, ih]

theorem pyGet_append {κ α : Type} [DecidableEq κ] (l1 l2 : List (κ × α)) (k : κ) :
    pyGet (l1 ++ l2) k =
      match pyGet l1 k with
      | some v => some v
      | none => pyGet l2 k := by
  induction l1 with
  | nil => simp [pyGet]
  | cons kv rest ih =>
      obtain ⟨k0, v0⟩ := kv
      by_cases h : k0 = k
      · simp [pyGet, h]
      · simp [pyGet, h, ih]

theorem pyGet_nil {κ α : Type} [DecidableEq κ] (k : κ) :
    pyGet ([] : List (κ × α)) k = none := rfl

/-- Every value stored by `mkMethodMap` is the single shared `rule_args`
dict. -/
theorem mkMethodMap_value (M : List String) (ra : RuleArgs) (m : String)
    (x : RuleArgs) (h : pyGet (mkMethodMap M ra) m = some x) : x = ra := by
  have aux : ∀ (pairs : List (String × RuleArgs)) (acc : List (String × RuleArgs)),
      (∀ kv, kv ∈ pairs → kv.2 = ra) →
      (∀ k y, pyGet acc k = some y → y = ra) →
      ∀ k y, pyGet (pairs.foldl (fun d kv => pySet d kv.1 kv.2) acc) k = some y →
        y = ra := by
    intro pairs
    induction pairs with
    | nil => intro acc _ hacc k y hy; exact hacc k y hy
    | cons kv rest ih =>
        intro acc hpairs hacc k y hy
        refine ih (pySet acc kv.1 kv.2) (fun p hp => hpairs p (List.mem_cons_of_mem _ hp)) ?_ k y hy
        intro k1 y1 h1
        rw [pyGet_pySet] at h1
        by_cases hk : kv.1 = k1
        · rw [if_pos hk] at h1
          have := hpairs kv (List.mem_cons_self _ _)
          simp only [Option.some.injEq] at h1
          rw [← h1]; exact this
        · rw [if_neg hk] at h1
          exact hacc k1 y1 h1
  refine aux (M.map (fun m0 => (upperStr m0, ra))) [] ?_ ?_ m x h
  · intro kv hkv
    simp only [List.mem_map] at hkv
    obtain ⟨m0, _, rfl⟩ := hkv
    rfl
  · intro k y hy
    simp [pyGet] at hy

/-- The keys of `mkMethodMap M ra` are exactly the upper-cased names of
`M`: registration normalizes, and lookup later happens verbatim against
these keys. -/
theorem mkMethodMap_key (M : List String) (ra : RuleArgs) (m : String) :
    (pyGet (mkMethodMap M ra) m).isSome = true ↔ m ∈ M.map upperStr := by
  have aux : ∀ (pairs : List (String × RuleArgs)) (acc : List (String × RuleArgs)) (k : String),
      (pyGet (pairs.foldl (fun d kv => pySet d kv.1 kv.2) acc) k).isSome = true ↔
        ((pyGet acc k).isSome = true ∨ k ∈ pairs.map Prod.fst) := by
    intro pairs
    induction pairs with
    | nil => intro acc k; simp
    | cons kv rest ih =>
        intro acc k
        simp only [List.foldl_cons, List.map_cons, List.mem_cons]
        rw [ih]
        rw [pyGet_pySet]
        by_cases hk : kv.1 = k
        · simp [hk]
        · have : ¬ k = kv.1 := fun h => hk h.symm
          simp [hk, this]
  have h2 := aux (M.map (fun m0 => (upperStr m0, ra))) [] m
  simp only [mkMethodMap, pyDict] at *
  rw [h2]
  simp [pyGet]

/-- A nonempty method list yields a nonempty method map. -/
theorem mkMethodMap_ne_nil (M : List String) (ra : RuleArgs) (m : String)
    (h : m ∈ M.map upperStr) : (mkMethodMap M ra).isEmpty = false := by
  have h1 := (mkMethodMap_key M ra m).mpr h
  cases hmm : mkMethodMap M ra with
  | nil => rw [hmm] at h1; simp [pyGet] at h1
  | cons a l => simp

/-! ### Defaults-merge lemmas (`Router.match` step 5) -/

/-- A captured parameter is never overwritten by a default. -/
theorem mergeDefaults_captured (ds : List (String × PVal)) :
    ∀ (ua : List (String × PVal)) (k : String) (v : PVal),
      pyGet ua k = some v → pyGet (mergeDefaults ua ds) k = some v := by
  induction ds with
  | nil => intro ua k v h; simpa [mergeDefaults] using h
  | cons kv rest ih =>
      intro ua k v h
      simp only [mergeDefaults, List.foldl_cons] at *
      by_cases hs : (pyGet ua kv.1).isSome = true
      · rw [if_pos hs]
        exact ih ua k v h
      · rw [if_neg hs]
        refine ih _ k v ?_
        rw [pyGet_append, h]

/-- A default is merged exactly when its key was not captured. -/
theorem mergeDefaults_default (ds : List (String × PVal)) :
    ∀ (ua : List (String × PVal)) (k : String) (v : PVal),
      pyGet ua k = none → pyGet ds k = some v →
      pyGet (mergeDefaults ua ds) k = some v := by
  induction ds with
  | nil => intro ua k v _ h2; simp [pyGet] at h2
  | cons kv rest ih =>
      intro ua k v h1 h2
      obtain ⟨k0, v0⟩ := kv
      simp only [mergeDefaults, List.foldl_cons] at *
      by_cases hk : k0 = k
      · subst hk
        rw [pyGet] at h2
        rw [if_pos rfl] at h2
        rw [h1]
        simp only [Option.isSome_none, Bool.false_eq_true, if_false]
        have hstep : pyGet (ua ++ [(k0, v0)]) k0 = some v0 := by
          rw [pyGet_append, h1]
          simp [pyGet]
        have := mergeDefaults_captured rest (ua ++ [(k0, v0)]) k0 v0 hstep
        simp only [mergeDefaults] at this
        simpa [h2] using this
      · rw [pyGet, if_neg hk] at h2
        by_cases hs : (pyGet ua k0).isSome = true
        · rw [if_pos hs]
          exact ih ua k v h1 h2
        · rw [if_neg hs]
          refine ih _ k v ?_ h2
          rw [pyGet_append, h1]
          simp [pyGet, hk]

/-! ### Pattern/compile lemmas -/

theorem findSome?_exists {α β : Type} {f : α → Option β} : ∀ {l : List α} {b : β},
    l.findSome? f = some b → ∃ a, a ∈ l ∧ f a = some b := by
  intro l
  induction l with
  | nil => intro b h; simp [List.findSome?] at h
  | cons a as ih =>
      intro b h
      rw [List.findSome?_cons] at h
      split at h
      · next heq =>
          cases h
          exact ⟨a, List.mem_cons_self _ _, heq⟩
      · next heq =>
          obtain ⟨a1, ha1, hf⟩ := ih h
          exact ⟨a1, List.mem_cons_of_mem _ ha1, hf⟩

/-- `groupdict()` binds exactly the pattern's group names, in order. -/
theorem matchSegs_keys : ∀ (p : List Seg) (cs : List Char)
    (gd : List (String × String)), matchSegs p cs = some gd →
    gd.map Prod.fst = segVars p := by
  intro p
  induction p with
  | nil =>
      intro cs gd h
      simp only [matchSegs] at h
      by_cases hcs : cs.isEmpty
      · rw [if_pos hcs] at h
        cases h
        rfl
      · rw [if_neg hcs] at h
        cases h
  | cons sg rest ih =>
      intro cs gd h
      cases sg with
      | slit s =>
          simp only [matchSegs] at h
          by_cases hp : s.data.isPrefixOf cs
          · rw [if_pos hp] at h
            exact ih _ gd h
          · rw [if_neg hp] at h
            cases h
      | sgroup v m =>
          simp only [matchSegs] at h
          obtain ⟨chunk, _, hchunk⟩ := findSome?_exists h
          cases hrest : matchSegs rest (cs.drop chunk.length) with
          | none => rw [hrest] at hchunk; cases hchunk
          | some gd1 =>
              rw [hrest] at hchunk
              injection hchunk with hchunk
              subst hchunk
              simp only [List.map_cons, segVars]
              rw [ih _ gd1 hrest]

/-- Every filter name produced by compilation is a group name of the
compiled pattern. -/
theorem compileTokens_filter_names : ∀ (t : List Tok) (p : List Seg)
    (f : List (String × FilterKind)) (st : Bool),
    compileTokens t = some (p, f, st) →
    ∀ nk, nk ∈ f → nk.1 ∈ segVars p := by
  intro t
  induction t with
  | nil =>
      intro p f st h nk hnk
      simp only [compileTokens, Option.some.injEq, Prod.mk.injEq] at h
      obtain ⟨-, rfl, -⟩ := h
      exact absurd hnk (List.not_mem_nil nk)
  | cons tok ts ih =>
      intro p f st h nk hnk
      cases tok with
      | lit s =>
          simp only [compileTokens, Option.bind_eq_bind, Option.bind_eq_some] at h
          obtain ⟨⟨p0, f0, st0⟩, hts, hres⟩ := h
          by_cases hs : s = ""
          · rw [if_pos hs] at hres
            simp only [Option.some.injEq, Prod.mk.injEq] at hres
            obtain ⟨rfl, rfl, rfl⟩ := hres
            exact ih _ _ _ hts nk hnk
          · rw [if_neg hs] at hres
            simp only [Option.some.injEq, Prod.mk.injEq] at hres
            obtain ⟨rfl, rfl, rfl⟩ := hres
            simp only [segVars]
            exact ih _ _ _ hts nk hnk
      | wild conv v =>
          simp only [compileTokens, Option.bind_eq_bind, Option.bind_eq_some] at h
          obtain ⟨⟨p0, f0, st0⟩, hts, ⟨⟨mask, inf⟩, hconv, hres2⟩⟩ := h
          cases inf with
          | some k =>
              simp only [Option.some.injEq, Prod.mk.injEq] at hres2
              obtain ⟨rfl, rfl, rfl⟩ := hres2
              simp only [segVars, List.mem_cons]
              rw [List.mem_cons] at hnk
              rcases hnk with rfl | hnk
              · left; rfl
              · right; exact ih _ _ _ hts nk hnk
          | none =>
              simp only [Option.some.injEq, Prod.mk.injEq] at hres2
              obtain ⟨rfl, rfl, rfl⟩ := hres2
              simp only [segVars, List.mem_cons]
              right; exact ih _ _ _ hts nk hnk

/-- A rule that compiles as static has no wildcards: no filters and no
group names. -/
theorem compileTokens_static : ∀ (t : List Tok) (p : List Seg)
    (f : List (String × FilterKind)),
    compileTokens t = some (p, f, true) → f = [] ∧ segVars p = [] := by
  intro t
  induction t with
  | nil =>
      intro p f h
      simp only [compileTokens, Option.some.injEq, Prod.mk.injEq] at h
      obtain ⟨rfl, rfl, -⟩ := h
      exact ⟨rfl, rfl⟩
  | cons tok ts ih =>
      intro p f h
      cases tok with
      | lit s =>
          simp only [compileTokens, Option.bind_eq_bind, Option.bind_eq_some] at h
          obtain ⟨⟨p0, f0, st0⟩, hts, hres⟩ := h
          by_cases hs : s = ""
          · rw [if_pos hs] at hres
            simp only [Option.some.injEq, Prod.mk.injEq] at hres
            obtain ⟨rfl, rfl, hst⟩ := hres
            exact ih _ _ (by rw [hts, hst])
          · rw [if_neg hs] at hres
            simp only [Option.some.injEq, Prod.mk.injEq] at hres
            obtain ⟨rfl, rfl, hst⟩ := hres
            obtain ⟨hf, hv⟩ := ih _ _ (by rw [hts, hst])
            exact ⟨hf, by simpa [segVars] using hv⟩
      | wild conv v =>
          simp only [compileTokens, Option.bind_eq_bind, Option.bind_eq_some] at h
          obtain ⟨⟨p0, f0, st0⟩, hts, ⟨⟨mask, inf⟩, hconv, hres2⟩⟩ := h
          cases inf with
          | some k => simp at hres2
          | none => simp at hres2

/-- When every filter name is bound in the parameter dict, the filter loop
either succeeds or fails with the 400 `BadRequest` (never with the
internal `KeyError`). -/
theorem runFilters_ok_or_bad : ∀ (fs : List (String × FilterKind))
    (ua : List (String × PVal)),
    (∀ nk, nk ∈ fs → (pyGet ua nk.1).isSome = true) →
    (∃ ua2, runFilters fs ua = .ok ua2) ∨
      runFilters fs ua = .error (.http (.badRequest "Path has wrong format.")) := by
  intro fs
  induction fs with
  | nil => intro ua _; exact Or.inl ⟨ua, rfl⟩
  | cons nk rest ih =>
      intro ua hall
      obtain ⟨name, fk⟩ := nk
      have hname := hall (name, fk) (List.mem_cons_self _ _)
      cases hv : pyGet ua name with
      | none => rw [hv] at hname; simp at hname
      | some v =>
          simp only [runFilters, hv]
          cases hf : applyFilter fk v with
          | none => exact Or.inr rfl
          | some v2 =>
              refine ih (pySet ua name v2) ?_
              intro nk1 hnk1
              rw [pyGet_pySet]
              by_cases hn : name = nk1.1
              · rw [if_pos hn]; rfl
              · rw [if_neg hn]
                exact hall nk1 (List.mem_cons_of_mem _ hnk1)

/-! ### `Router.add` / `Router.match` computation lemmas -/

theorem pyGet_isSome_iff {κ α : Type} [DecidableEq κ] (l : List (κ × α)) (k : κ) :
    (pyGet l k).isSome = true ↔ k ∈ l.map Prod.fst := by
  induction l with
  | nil => simp [pyGet]
  | cons kv rest ih =>
      by_cases h : kv.1 = k
      · subst h
        cases kv
        simp [pyGet]
      · cases kv
        simp only at h
        rw [List.map_cons, List.mem_cons]
        simp only [pyGet, if_neg h]
        rw [ih]
        have : ¬ k = _ := fun hk => h hk.symm
        simp [this]

theorem pyGet_some_ne_nil {κ α : Type} [DecidableEq κ] {l : List (κ × α)}
    {k : κ} {v : α} (h : pyGet l k = some v) : l.isEmpty = false := by
  cases l with
  | nil => simp [pyGet] at h
  | cons a rest => simp

/-- `add` of a wildcard-free rule on a non-strict router: the rule is
stored in the static map under its literal path, replacing any previous
entry for that path wholesale. -/
theorem add_static_eq (r : Router) (toks : List Tok) (e : String)
    (M : List String) (d : Option (List (String × PVal)))
    (p : List Seg) (f : List (String × FilterKind))
    (hc : compileTokens toks = some (p, f, true))
    (hs : r.strict_order = false) :
    r.add toks e M d = some { r with
      static_routes := pySet r.static_routes (renderRule toks)
        (mkMethodMap M (RuleArgs.mk e (renderRule toks) f p d)) } := by
  simp [Router.add, hc, hs]

/-- `add` of a rule that does not take the static shortcut (wildcards
present, or strict mode): the compiled rule is appended to the dynamic
list, in registration order. -/
theorem add_dynamic_eq (r : Router) (toks : List Tok) (e : String)
    (M : List String) (d : Option (List (String × PVal)))
    (p : List Seg) (f : List (String × FilterKind)) (st : Bool)
    (hc : compileTokens toks = some (p, f, st))
    (hcond : (st && !r.strict_order) = false)
    (hdup : hasDupVars p = false) :
    r.add toks e M d = some { r with
      dynamic := r.dynamic ++
        [(p, mkMethodMap M (RuleArgs.mk e (renderRule toks) f p d))] } := by
  simp [Router.add, hc, hcond, hdup]
  intro hst
  rw [hst] at hcond
  simpa using hcond

/-- A static hit whose method map lacks the requested method is a 405,
whatever the dynamic rules would say: the dynamic scan is skipped. -/
theorem matchRoute_static_mna (r : Router) (path m : String)
    (mm : List (String × RuleArgs))
    (hst : pyGet r.static_routes path = some mm)
    (hne : mm.isEmpty = false) (hm : pyGet mm m = none) :
    r.matchRoute path m = .error (.http (.methodNotAllowed
      (.pystr (allowMsg mm)) mnaDefaultDescription)) := by
  simp [Router.matchRoute, hst, hne, hm]

/-- A static hit with the method present and no filters resolves to the
static rule's endpoint with its defaults. -/
theorem matchRoute_static_ok (r : Router) (path m : String)
    (mm : List (String × RuleArgs)) (args : RuleArgs)
    (hst : pyGet r.static_routes path = some mm)
    (hm : pyGet mm m = some args) (hf : args.filters = []) :
    r.matchRoute path m = .ok (args.endpoint,
      mergeDefaults [] (match args.defaults with | some d => d | none => [])) := by
  have hne := pyGet_some_ne_nil hm
  simp [Router.matchRoute, hst, hne, hm, hf, runFilters]

/-- With no static hit, the first dynamic rule whose pattern matches
decides; if its method map lacks the method, the result is a 405 built
from that rule alone (later dynamic rules are never consulted). -/
theorem matchRoute_dynamic_mna (r : Router) (path m : String)
    (mm : List (String × RuleArgs)) (gd : List (String × String))
    (hst : pyGet r.static_routes path = none)
    (hdyn : findDynamic r.dynamic path.data = some (mm, gd))
    (hne : mm.isEmpty = false) (hm : pyGet mm m = none) :
    r.matchRoute path m = .error (.http (.methodNotAllowed
      (.pystr (allowMsg mm)) mnaDefaultDescription)) := by
  simp [Router.matchRoute, hst, hdyn, hne, hm]

/-- With no static hit, when the first matching dynamic rule permits the
method, the outcome is that rule's endpoint — or the 400 `BadRequest` when
one of its decoders rejects the captured text. -/
theorem matchRoute_dynamic_ok_or_bad (r : Router) (path m : String)
    (mm : List (String × RuleArgs)) (gd : List (String × String))
    (args : RuleArgs)
    (hst : pyGet r.static_routes path = none)
    (hdyn : findDynamic r.dynamic path.data = some (mm, gd))
    (hm : pyGet mm m = some args)
    (hsub : ∀ nk, nk ∈ args.filters → nk.1 ∈ gd.map Prod.fst) :
    (∃ ua, r.matchRoute path m = .ok (args.endpoint, ua)) ∨
      r.matchRoute path m =
        .error (.http (.badRequest "Path has wrong format.")) := by
  have hne := pyGet_some_ne_nil hm
  have hkeys : ∀ nk, nk ∈ args.filters →
      (pyGet (gd.map (fun kv => (kv.1, PVal.vstr kv.2))) nk.1).isSome = true := by
    intro nk hnk
    rw [pyGet_isSome_iff]
    have : (gd.map (fun kv => (kv.1, PVal.vstr kv.2))).map Prod.fst = gd.map Prod.fst := by
      simp
    rw [this]
    exact hsub nk hnk
  rcases runFilters_ok_or_bad args.filters _ hkeys with ⟨ua2, hok⟩ | hbad
  · left
    refine ⟨mergeDefaults ua2 (match args.defaults with | some d => d | none => []), ?_⟩
    simp [Router.matchRoute, hst, hdyn, hne, hm, hok]
  · right
    simp [Router.matchRoute, hst, hdyn, hne, hm, hbad]

/-- `match` reads the router only through the static lookup of the path
and the dynamic list: routers agreeing there agree on the outcome. -/
theorem matchRoute_congr (r r1 : Router) (path m : String)
    (h1 : pyGet r.static_routes path = pyGet r1.static_routes path)
    (h2 : r.dynamic = r1.dynamic) :
    r.matchRoute path m = r1.matchRoute path m := by
  simp only [Router.matchRoute, h1, h2]

/-! ### Claim scenarios and theorems -/

/-- The application of the 405 end-to-end scenario: `/only-get` registered
for `GET` only, with a view returning `"ok"`. -/
def c1Router : Router :=
  ((Router.empty false).add [Tok.lit "/only-get"] "onlyget" ["GET"] none).getD
    (Router.empty false)

def c1App : AppModel :=
  { AppModel.init with
    router := c1Router,
    view_functions := [("onlyget", ViewAct.ret "ok")] }

/-- A `POST` request to `/only-get`. -/
def c1Env : Environ := { PATH_INFO := "/only-get", REQUEST_METHOD := "POST" }

/-- Claim C1: the claim says dispatching `POST /only-get` against a GET-only
route produces a 405 response because the dispatcher passes the request's
method to `Router.match`. The code does not: `full_dispatch_request` calls
`self.router.match(to_unicode(req.environ['PATH_INFO']))` with no method
argument, so the match always uses the default `'GET'`; the `POST` request
is routed to the GET-only endpoint and its normal 200 response is
returned, and no teardown or error path is taken. -/
theorem c1_dispatch_ignores_request_method :
    wsgi_app c1App c1Env =
      { result := Except.ok { status := 200, headers := [], body := "ok" },
        teardown := [], error := none } ∧
    (wsgi_app c1App c1Env).result.toOption.map Resp.status = some 200 := by
  exact ⟨rfl, rfl⟩

/-- The router of the `Allow`-header scenario: `/only-get` for `GET` only. -/
def c2Router : Router :=
  ((Router.empty false).add [Tok.lit "/only-get"] "onlyget" ["GET"] none).getD
    (Router.empty false)

/-- The exception `Router.match('/only-get', 'POST')` raises: the
human-readable message lands in the `valid_methods` slot (the first
positional argument of `MethodNotAllowed.__init__`). -/
def c2Exc : HttpExcM :=
  .methodNotAllowed (.pystr "Method not allowed. Allowed methods: GET")
    mnaDefaultDescription

/-- Claim C2: the 405 is raised, but the error does not carry the allowed-method
set: `routing.py` passes the formatted message string as
`MethodNotAllowed`'s first positional argument `valid_methods` (documented
to be a list of methods), so `get_headers` joins the *characters* of the
message; the `Allow` header is the mangled character join, never `"GET"`. -/
theorem c2_allow_header_is_mangled :
    c2Router.matchRoute "/only-get" "POST" = .error (.http c2Exc) ∧
    c2Exc.getHeaders =
      [("Content-Type", "text/plain"),
       ("Allow",
        pyJoin ", " (.pystr "Method not allowed. Allowed methods: GET"))] ∧
    decide (("Allow", "GET") ∈ c2Exc.getHeaders) = false := by
  exact ⟨rfl, rfl, by decide⟩

/-- Scenario (a) of C3: static `/p` for GET only, plus a dynamic
`/<name>` rule permitting POST, which also matches `/p`. -/
def c3aRouter : Router :=
  (((Router.empty false).add [Tok.lit "/p"] "e1" ["GET"] none).bind
    (fun r => r.add [Tok.lit "/", Tok.wild "string" "name"] "e2" ["POST"] none)).getD
    (Router.empty false)

/-- Scenario (b) of C3: dynamic `/<a>` for GET only added before dynamic
`/<b>` permitting POST; both patterns match `/z`. -/
def c3bRouter : Router :=
  (((Router.empty false).add [Tok.lit "/", Tok.wild "string" "a"] "d1" ["GET"] none).bind
    (fun r => r.add [Tok.lit "/", Tok.wild "string" "b"] "d2" ["POST"] none)).getD
    (Router.empty false)

/-- Counterexample for C3: the claim says the scan continues past a
method-less pattern match, so scenario (a) should resolve `POST /p` to the
dynamic rule's endpoint `e2` and scenario (b) should resolve `POST /z` to
the later rule's endpoint `d2`. The code stops at the first pattern match
(`static_routes.get` short-circuits the dynamic loop entirely, and the
dynamic loop `break`s on the first regex hit), so both raise 405 instead. -/
theorem c3_counterexample :
    c3aRouter.matchRoute "/p" "POST" = .error (.http (.methodNotAllowed
      (.pystr "Method not allowed. Allowed methods: GET")
      mnaDefaultDescription)) ∧
    c3bRouter.matchRoute "/z" "POST" = .error (.http (.methodNotAllowed
      (.pystr "Method not allowed. Allowed methods: GET")
      mnaDefaultDescription)) ∧
    decide (c3aRouter.matchRoute "/p" "POST" =
      .ok ("e2", [("name", PVal.vstr "p")])) = false ∧
    decide (c3bRouter.matchRoute "/z" "POST" =
      .ok ("d2", [("b", PVal.vstr "z")])) = false := by
  exact ⟨rfl, rfl, by decide, by decide⟩

/-- Claim C3 as amended: `Router.match` stops at the first pattern match. (a) A
static hit whose method map lacks the method yields 405 built from that
entry alone — the dynamic rules are never scanned. (b) With no static hit,
the first dynamic rule whose pattern matches decides: if its method map
lacks the method, 405 is raised from that rule's methods alone and
later-registered dynamic rules are never consulted. -/
theorem c3_first_match_shortcircuits :
    (∀ (r : Router) (path m : String) (mm : List (String × RuleArgs)),
      pyGet r.static_routes path = some mm → mm.isEmpty = false →
      pyGet mm m = none →
      r.matchRoute path m = .error (.http (.methodNotAllowed
        (.pystr (allowMsg mm)) mnaDefaultDescription))) ∧
    (∀ (r : Router) (path m : String) (mm : List (String × RuleArgs))
      (gd : List (String × String)),
      pyGet r.static_routes path = none →
      findDynamic r.dynamic path.data = some (mm, gd) →
      mm.isEmpty = false → pyGet mm m = none →
      r.matchRoute path m = .error (.http (.methodNotAllowed
        (.pystr (allowMsg mm)) mnaDefaultDescription))) := by
  constructor
  · intro r path m mm h1 h2 h3
    exact matchRoute_static_mna r path m mm h1 h2 h3
  · intro r path m mm gd h1 h2 h3 h4
    exact matchRoute_dynamic_mna r path m mm gd h1 h2 h3 h4

/-- Witness for C3: both short-circuit branches exercised on the concrete
scenario routers. -/
theorem c3_first_match_shortcircuits_witness :
    c3aRouter.matchRoute "/p" "POST" = .error (.http (.methodNotAllowed
      (.pystr (allowMsg [("GET", RuleArgs.mk "e1" "/p" [] [Seg.slit "/p"] none)]))
      mnaDefaultDescription)) ∧
    c3bRouter.matchRoute "/z" "POST" = .error (.http (.methodNotAllowed
      (.pystr (allowMsg [("GET", RuleArgs.mk "d1" "/<string:a>"
        [] [Seg.slit "/", Seg.sgroup "a" Mask.mstring] none)]))
      mnaDefaultDescription)) := by
  constructor
  · exact c3_first_match_shortcircuits.1 c3aRouter "/p" "POST" _ rfl rfl rfl
  · exact c3_first_match_shortcircuits.2 c3bRouter "/z" "POST" _ [("a", "z")]
      rfl rfl rfl rfl

/-- Claim C4 as amended: first-match-wins among dynamic rules. Both rules compile as
dynamic with distinct patterns, R1 registered first; both patterns match
the path and R1's (upper-cased) method set contains the method. The claim
concludes that `match` returns R1's endpoint; on the code this holds up to
R1's own decoders: the outcome is R1's endpoint, or the 400 `BadRequest`
when an R1 decoder rejects the captured text (see the counterexample); R2
is never consulted either way. -/
theorem c4_first_match_wins (b : Bool) (t1 t2 : List Tok) (e1 e2 : String)
    (M1 M2 : List String) (d1 d2 : Option (List (String × PVal)))
    (p1 p2 : List Seg) (f1 f2 : List (String × FilterKind))
    (r1 r2 : Router) (path m : String) (gd1 : List (String × String))
    (hc1 : compileTokens t1 = some (p1, f1, false))
    (hc2 : compileTokens t2 = some (p2, f2, false))
    (hdistinct : p1 ≠ p2)
    (hadd1 : (Router.empty b).add t1 e1 M1 d1 = some r1)
    (hadd2 : r1.add t2 e2 M2 d2 = some r2)
    (hm1 : matchSegs p1 path.data = some gd1)
    (hm2 : (matchSegs p2 path.data).isSome = true)
    (hmeth : m ∈ M1.map upperStr) :
    (∃ ua, r2.matchRoute path m = .ok (e1, ua)) ∨
      r2.matchRoute path m =
        .error (.http (.badRequest "Path has wrong format.")) := by
  have hd1 := add_dynamic_eq (Router.empty b) t1 e1 M1 d1 p1 f1 false hc1
    (by simp) ?hdup1
  case hdup1 =>
    by_contra hdup
    simp only [Bool.not_eq_false] at hdup
    simp [Router.add, hc1, hdup] at hadd1
  rw [hadd1] at hd1
  have hr1 : r1 = { Router.empty b with dynamic := (Router.empty b).dynamic ++
      [(p1, mkMethodMap M1 (RuleArgs.mk e1 (renderRule t1) f1 p1 d1))] } :=
    Option.some.inj hd1
  have hd2 := add_dynamic_eq r1 t2 e2 M2 d2 p2 f2 false hc2 (by simp) ?hdup2
  case hdup2 =>
    by_contra hdup
    simp only [Bool.not_eq_false] at hdup
    simp [Router.add, hc2, hdup] at hadd2
  rw [hadd2] at hd2
  have hr2 : r2 = { r1 with dynamic := r1.dynamic ++
      [(p2, mkMethodMap M2 (RuleArgs.mk e2 (renderRule t2) f2 p2 d2))] } :=
    Option.some.inj hd2
  set ra1 := RuleArgs.mk e1 (renderRule t1) f1 p1 d1 with hra1
  have hstat : pyGet r2.static_routes path = none := by
    rw [hr2, hr1]
    simp [Router.empty, pyGet]
  have hdynlist : r2.dynamic =
      [(p1, mkMethodMap M1 ra1),
       (p2, mkMethodMap M2 (RuleArgs.mk e2 (renderRule t2) f2 p2 d2))] := by
    rw [hr2, hr1]
    simp [Router.empty]
  have hfind : findDynamic r2.dynamic path.data = some (mkMethodMap M1 ra1, gd1) := by
    rw [hdynlist]
    simp [findDynamic, hm1]
  have hsome : (pyGet (mkMethodMap M1 ra1) m).isSome = true :=
    (mkMethodMap_key M1 ra1 m).mpr hmeth
  cases hargs : pyGet (mkMethodMap M1 ra1) m with
  | none => rw [hargs] at hsome; simp at hsome
  | some args =>
      have hval : args = ra1 := mkMethodMap_value M1 ra1 m args hargs
      have hsub : ∀ nk, nk ∈ args.filters → nk.1 ∈ gd1.map Prod.fst := by
        intro nk hnk
        rw [matchSegs_keys p1 path.data gd1 hm1]
        refine compileTokens_filter_names t1 p1 f1 false hc1 nk ?_
        rw [hval] at hnk
        exact hnk
      have := matchRoute_dynamic_ok_or_bad r2 path m (mkMethodMap M1 ra1) gd1
        args hstat hfind hargs hsub
      rw [hval] at this
      exact this

/-- The router of the C4 witness: `/<a>` (GET, endpoint d1) added before
`/<b>` (GET, endpoint d2); both match `/z`. -/
def c4r1 : Router :=
  ((Router.empty false).add [Tok.lit "/", Tok.wild "string" "a"] "d1" ["GET"] none).getD
    (Router.empty false)

def c4r2 : Router :=
  (c4r1.add [Tok.lit "/", Tok.wild "string" "b"] "d2" ["GET"] none).getD
    (Router.empty false)

/-- Witness for C4 at a concrete pair of rules. -/
theorem c4_first_match_wins_witness :
    (∃ ua, c4r2.matchRoute "/z" "GET" = .ok ("d1", ua)) ∨
      c4r2.matchRoute "/z" "GET" =
        .error (.http (.badRequest "Path has wrong format.")) := by
  exact c4_first_match_wins false
    [Tok.lit "/", Tok.wild "string" "a"] [Tok.lit "/", Tok.wild "string" "b"]
    "d1" "d2" ["GET"] ["GET"] none none
    [Seg.slit "/", Seg.sgroup "a" Mask.mstring]
    [Seg.slit "/", Seg.sgroup "b" Mask.mstring]
    [] [] c4r1 c4r2 "/z" "GET" [("a", "z")]
    rfl rfl (by decide) rfl rfl rfl (by decide) (by decide)

/-- The routers of the C4 counterexample: `/<float:x>` (GET, endpoint e1)
added before `/<path:y>` (GET, endpoint e2); both patterns match `/..`,
`GET` is permitted by R1, yet `float('..')` raises `ValueError`, so
`match` answers 400, not R1's endpoint. -/
def c4cRouter : Router :=
  (((Router.empty false).add [Tok.lit "/", Tok.wild "float" "x"] "e1" ["GET"] none).bind
    (fun r => r.add [Tok.lit "/", Tok.wild "path" "y"] "e2" ["GET"] none)).getD
    (Router.empty false)

/-- Counterexample for C4: at `/..` the first-registered rule `/<float:x>`
pattern-matches and permits GET, but the claimed conclusion — `match`
returns R1's endpoint — fails: the float decoder rejects `".."` and the
result is the 400 `BadRequest`. -/
theorem c4_counterexample :
    c4cRouter.matchRoute "/.." "GET" =
      .error (.http (.badRequest "Path has wrong format.")) ∧
    decide ((matchSegs [Seg.slit "/", Seg.sgroup "x" Mask.mfloat] "/..".data).isSome) = true ∧
    decide ((matchSegs [Seg.slit "/", Seg.sgroup "y" Mask.mpath] "/..".data).isSome) = true ∧
    decide ("GET" ∈ (["GET"].map upperStr)) = true := by
  exact ⟨rfl, by decide, by decide, by decide⟩

/-- Claim C5: static precedence. Outside strict mode a wildcard-free rule is
stored in the static map under its literal path, and matching that exact
path with a permitted method returns the static rule's endpoint — whatever
dynamic rules the router holds, including an earlier-added one whose
pattern matches the same path (the static lookup comes first). In strict
mode the wildcard-free rule goes down the dynamic path instead: the static
map stays empty and the earlier-registered dynamic rule decides. -/
theorem c5_static_precedence :
    (∀ (r0 : Router) (toks : List Tok) (eL : String) (M : List String)
      (dfl : Option (List (String × PVal))) (path m : String) (r : Router)
      (p pD : List Seg) (f : List (String × FilterKind))
      (mmD : List (String × RuleArgs)),
      r0.strict_order = false →
      compileTokens toks = some (p, f, true) →
      renderRule toks = path →
      (pD, mmD) ∈ r0.dynamic →
      (matchSegs pD path.data).isSome = true →
      r0.add toks eL M dfl = some r →
      m ∈ M.map upperStr →
      r.matchRoute path m = .ok (eL,
        mergeDefaults [] (match dfl with | some d => d | none => []))) ∧
    (∀ (tD tL : List Tok) (eD eL : String) (MD ML : List String)
      (dD dL : Option (List (String × PVal))) (path m : String)
      (pD pL : List Seg) (fD fL : List (String × FilterKind)) (stD : Bool)
      (r1 r2 : Router) (gdD : List (String × String)),
      compileTokens tD = some (pD, fD, stD) →
      compileTokens tL = some (pL, fL, true) →
      renderRule tL = path →
      (Router.empty true).add tD eD MD dD = some r1 →
      r1.add tL eL ML dL = some r2 →
      matchSegs pD path.data = some gdD →
      m ∈ MD.map upperStr →
      r2.static_routes = [] ∧
        ((∃ ua, r2.matchRoute path m = .ok (eD, ua)) ∨
          r2.matchRoute path m =
            .error (.http (.badRequest "Path has wrong format.")))) := by
  constructor
  · intro r0 toks eL M dfl path m r p pD f mmD hstrict hc hpath hmem hmatch hadd hmeth
    have hf : f = [] := (compileTokens_static toks p f hc).1
    subst hf
    have heq := add_static_eq r0 toks eL M dfl p [] hc hstrict
    rw [hadd] at heq
    have hr : r = Router.mk
        (pySet r0.static_routes (renderRule toks)
          (mkMethodMap M (RuleArgs.mk eL (renderRule toks) [] p dfl)))
        r0.dynamic r0.strict_order :=
      Option.some.inj heq
    set ra := RuleArgs.mk eL (renderRule toks) [] p dfl with hra
    have hstat : pyGet r.static_routes path = some (mkMethodMap M ra) := by
      rw [hr]
      simp only
      rw [pyGet_pySet, hpath, if_pos rfl]
    have hsome : (pyGet (mkMethodMap M ra) m).isSome = true :=
      (mkMethodMap_key M ra m).mpr hmeth
    cases hargs : pyGet (mkMethodMap M ra) m with
    | none => rw [hargs] at hsome; simp at hsome
    | some args =>
        have hval : args = ra := mkMethodMap_value M ra m args hargs
        have := matchRoute_static_ok r path m (mkMethodMap M ra) args hstat
          hargs (by rw [hval])
        rw [hval] at this
        exact this
  · intro tD tL eD eL MD ML dD dL path m pD pL fD fL stD r1 r2 gdD
      hcD hcL hpathL hadd1 hadd2 hmD hmeth
    have hd1 := add_dynamic_eq (Router.empty true) tD eD MD dD pD fD stD hcD
      (by simp [Router.empty]) ?hdupD
    case hdupD =>
      by_contra hdup
      simp only [Bool.not_eq_false] at hdup
      simp [Router.add, hcD, hdup, Router.empty] at hadd1
    rw [hadd1] at hd1
    have hr1 : r1 = Router.mk (Router.empty true).static_routes
        ((Router.empty true).dynamic ++
          [(pD, mkMethodMap MD (RuleArgs.mk eD (renderRule tD) fD pD dD))])
        (Router.empty true).strict_order :=
      Option.some.inj hd1
    have hvarsL : segVars pL = [] := (compileTokens_static tL pL fL hcL).2
    have hdupL : hasDupVars pL = false := by
      simp [hasDupVars, hvarsL]
    have hstr1 : r1.strict_order = true := by rw [hr1]; rfl
    have hd2 := add_dynamic_eq r1 tL eL ML dL pL fL true hcL
      (by rw [hstr1]; simp) hdupL
    rw [hadd2] at hd2
    have hr2 : r2 = Router.mk r1.static_routes
        (r1.dynamic ++
          [(pL, mkMethodMap ML (RuleArgs.mk eL (renderRule tL) fL pL dL))])
        r1.strict_order :=
      Option.some.inj hd2
    set raD := RuleArgs.mk eD (renderRule tD) fD pD dD with hraD
    have hstatics : r2.static_routes = [] := by
      rw [hr2, hr1]
      rfl
    refine ⟨hstatics, ?_⟩
    have hstat : pyGet r2.static_routes path = none := by
      rw [hstatics]
      rfl
    have hfind : findDynamic r2.dynamic path.data = some (mkMethodMap MD raD, gdD) := by
      rw [hr2, hr1]
      simp only [Router.empty, List.nil_append]
      simp [findDynamic, hmD]
    have hsome : (pyGet (mkMethodMap MD raD) m).isSome = true :=
      (mkMethodMap_key MD raD m).mpr hmeth
    cases hargs : pyGet (mkMethodMap MD raD) m with
    | none => rw [hargs] at hsome; simp at hsome
    | some args =>
        have hval : args = raD := mkMethodMap_value MD raD m args hargs
        have hsub : ∀ nk, nk ∈ args.filters → nk.1 ∈ gdD.map Prod.fst := by
          intro nk hnk
          rw [matchSegs_keys pD path.data gdD hmD]
          refine compileTokens_filter_names tD pD fD stD hcD nk ?_
          rw [hval] at hnk
          exact hnk
        have := matchRoute_dynamic_ok_or_bad r2 path m (mkMethodMap MD raD)
          gdD args hstat hfind hargs hsub
        rw [hval] at this
        exact this

/-- A non-strict router holding dynamic `/<n>` (endpoint dyn) and then the
literal `/lit` (endpoint stat). -/
def c5Router : Router :=
  (((Router.empty false).add [Tok.lit "/", Tok.wild "string" "n"] "dyn" ["GET"] none).bind
    (fun r => r.add [Tok.lit "/lit"] "stat" ["GET"] none)).getD
    (Router.empty false)

/-- Stage-1 router of the strict C5 scenario. -/
def c5sr1 : Router :=
  ((Router.empty true).add [Tok.lit "/", Tok.wild "string" "n"] "dyn" ["GET"] none).getD
    (Router.empty true)

/-- Strict-mode router with the same two rules. -/
def c5sr2 : Router :=
  (c5sr1.add [Tok.lit "/lit"] "stat" ["GET"] none).getD (Router.empty true)

/-- Witness for C5 on concrete routers: non-strict `/lit` resolves to the
static endpoint although the earlier dynamic rule also matches; in strict
mode the static map is empty and the earlier dynamic rule wins. -/
theorem c5_static_precedence_witness :
    c5Router.matchRoute "/lit" "GET" = .ok ("stat", []) ∧
    (c5sr2.static_routes = [] ∧
      ((∃ ua, c5sr2.matchRoute "/lit" "GET" = .ok ("dyn", ua)) ∨
        c5sr2.matchRoute "/lit" "GET" =
          .error (.http (.badRequest "Path has wrong format.")))) := by
  constructor
  · exact c5_static_precedence.1
      (((Router.empty false).add [Tok.lit "/", Tok.wild "string" "n"] "dyn" ["GET"] none).getD
        (Router.empty false))
      [Tok.lit "/lit"] "stat" ["GET"] none "/lit" "GET" c5Router
      [Seg.slit "/lit"] [Seg.slit "/", Seg.sgroup "n" Mask.mstring] []
      [("GET", RuleArgs.mk "dyn" "/<string:n>" []
        [Seg.slit "/", Seg.sgroup "n" Mask.mstring] none)]
      rfl rfl rfl (by decide) (by decide) rfl (by decide)
  · exact c5_static_precedence.2
      [Tok.lit "/", Tok.wild "string" "n"] [Tok.lit "/lit"] "dyn" "stat"
      ["GET"] ["GET"] none none "/lit" "GET"
      [Seg.slit "/", Seg.sgroup "n" Mask.mstring] [Seg.slit "/lit"]
      [] [] false c5sr1 c5sr2 [("n", "lit")]
      rfl rfl rfl rfl rfl rfl (by decide)

/-- The GET-only router of the C6 scenario. -/
def c6Router : Router :=
  ((Router.empty false).add [Tok.lit "/x"] "e" ["GET"] none).getD
    (Router.empty false)

/-- Counterexample for C6: the claim says `match(path, m)` behaves like
`match(path, m.upper())`; on the GET-only route, `'get'` yields a 405
while `'GET'` succeeds — `Router.match` performs no normalization of its
method argument. -/
theorem c6_counterexample :
    c6Router.matchRoute "/x" "get" = .error (.http (.methodNotAllowed
      (.pystr "Method not allowed. Allowed methods: GET")
      mnaDefaultDescription)) ∧
    c6Router.matchRoute "/x" "GET" = .ok ("e", []) ∧
    decide (upperStr "get" = "GET") = true ∧
    decide (c6Router.matchRoute "/x" "get" =
      c6Router.matchRoute "/x" "GET") = false := by
  exact ⟨rfl, rfl, by decide, by decide⟩

/-- Claim C6 as amended: only `Router.add` normalizes — a rule's method map is
keyed by exactly the upper-cased registered names — while `Router.match`
looks its `method` argument up verbatim, so a lower-case method misses a
registered upper-case key (405 on the GET-only route) where its upper-case
form succeeds. -/
theorem c6_add_normalizes_match_does_not :
    (∀ (M : List String) (ra : RuleArgs) (m : String),
      (pyGet (mkMethodMap M ra) m).isSome = true ↔ m ∈ M.map upperStr) ∧
    c6Router.matchRoute "/x" "get" = .error (.http (.methodNotAllowed
      (.pystr "Method not allowed. Allowed methods: GET")
      mnaDefaultDescription)) ∧
    c6Router.matchRoute "/x" "GET" = .ok ("e", []) := by
  exact ⟨mkMethodMap_key, rfl, rfl⟩

/-- The `/<name>` rule with defaults `{foo: 1234, name: 'bar'}`. -/
def c7Router : Router :=
  ((Router.empty false).add [Tok.lit "/", Tok.wild "string" "name"] "index" ["GET"]
    (some [("foo", PVal.vint 1234), ("name", PVal.vstr "bar")])).getD
    (Router.empty false)

/-- Claim C7: defaults merge, captured wins. In the merge loop a key already
captured keeps its captured value, a key absent from the captured
parameters receives its default, and the concrete `/<name>` example
matched against `/foo` yields exactly `{name: 'foo', foo: 1234}` through
the full `add`/`match` pipeline. -/
theorem c7_defaults_merge :
    (∀ (ds ua : List (String × PVal)) (k : String) (v : PVal),
      pyGet ua k = some v → pyGet (mergeDefaults ua ds) k = some v) ∧
    (∀ (ds ua : List (String × PVal)) (k : String) (v : PVal),
      pyGet ua k = none → pyGet ds k = some v →
      pyGet (mergeDefaults ua ds) k = some v) ∧
    c7Router.matchRoute "/foo" "GET" =
      .ok ("index", [("name", PVal.vstr "foo"), ("foo", PVal.vint 1234)]) := by
  exact ⟨mergeDefaults_captured, mergeDefaults_default, rfl⟩

/-- Witness for C7: both merge directions at concrete dictionaries. -/
theorem c7_defaults_merge_witness :
    pyGet (mergeDefaults [("name", PVal.vstr "foo")]
      [("foo", PVal.vint 1234), ("name", PVal.vstr "bar")]) "name" =
      some (PVal.vstr "foo") ∧
    pyGet (mergeDefaults [("name", PVal.vstr "foo")]
      [("foo", PVal.vint 1234), ("name", PVal.vstr "bar")]) "foo" =
      some (PVal.vint 1234) := by
  constructor
  · exact c7_defaults_merge.1 [("foo", PVal.vint 1234), ("name", PVal.vstr "bar")]
      [("name", PVal.vstr "foo")] "name" (PVal.vstr "foo") rfl
  · exact c7_defaults_merge.2.1 [("foo", PVal.vint 1234), ("name", PVal.vstr "bar")]
      [("name", PVal.vstr "foo")] "foo" (PVal.vint 1234) rfl rfl

/-- The app of the C8 scenario, parametric in the hook lists and the
raised exception's tag: one blueprint route `foo.bar` whose view raises an
exception with no registered handler, global teardown hooks `g`,
blueprint-scoped teardown hooks `bpl`. -/
def c8App (g bpl : List Nat) (t : Nat) : AppModel :=
  { AppModel.init with
    router := ((Router.empty false).add [Tok.lit "/foo/bar"] "foo.bar" ["GET"] none).getD
      (Router.empty false),
    view_functions := [("foo.bar", ViewAct.raiseExc (.user t))],
    teardown_request_funcs := [(none, g), (some "foo", bpl)] }

def c8Env : Environ := { PATH_INFO := "/foo/bar", REQUEST_METHOD := "GET" }

/-- Counterexample for C8: with one global teardown hook (1) and one
blueprint-scoped hook (2), the trace is global-then-blueprint —
`do_teardown_request` starts from `teardown_request_funcs.get(None, ())`
and chains the blueprint's hooks after it — not blueprint-then-global as
the claim orders them. -/
theorem c8_counterexample :
    (wsgi_app (c8App [1] [2] 7) c8Env).teardown =
      [(1, some (Exc.user 7)), (2, some (Exc.user 7))] ∧
    decide ((wsgi_app (c8App [1] [2] 7) c8Env).teardown =
      [(2, some (Exc.user 7)), (1, some (Exc.user 7))]) = false := by
  exact ⟨rfl, by decide⟩

/-- Claim C8 as amended: when the endpoint handler raises an exception with no
registered handler, the teardown hooks run exactly once — global hooks
first, then the blueprint-scoped ones (the reverse of the claimed order) —
each receiving the captured exception object, and the generic 500 response
is what the WSGI call returns. -/
theorem c8_teardown_always_runs (g bpl : List Nat) (t : Nat) :
    (wsgi_app (c8App g bpl t) c8Env).result =
      .ok (Resp.mk 500 [("Content-Type", "text/plain")] iseDefaultDescription) ∧
    (wsgi_app (c8App g bpl t) c8Env).teardown =
      (g ++ bpl).map (fun h => (h, some (Exc.user t))) ∧
    (wsgi_app (c8App g bpl t) c8Env).error = some (Exc.user t) := by
  exact ⟨rfl, rfl, rfl⟩

/-- Claim C9: request-context push/pop is strictly LIFO. Pushing A and
then popping a different context B (A still on top) trips the fatal
`Popped wrong request context` assertion, while popping the context pushed
last succeeds and removes exactly that frame (Python object identity is
the context id). -/
theorem c9_context_lifo :
    (∀ (A B : ReqCtx) (s : List ReqCtx), B.ctxId ≠ A.ctxId →
      ReqCtx.pop B (ReqCtx.push A s) = .error .poppedWrongContext) ∧
    (∀ (A : ReqCtx) (s : List ReqCtx),
      ReqCtx.pop A (ReqCtx.push A s) = .ok s) := by
  constructor
  · intro A B s hne
    simp only [ReqCtx.push, ReqCtx.pop]
    rw [if_neg (fun h => hne h.symm)]
  · intro A s
    simp [ReqCtx.push, ReqCtx.pop]

/-- Witness for C9 at two concrete contexts. -/
theorem c9_context_lifo_witness :
    ReqCtx.pop (ReqCtx.mk 1) (ReqCtx.push (ReqCtx.mk 0) []) =
      .error .poppedWrongContext ∧
    ReqCtx.pop (ReqCtx.mk 0) (ReqCtx.push (ReqCtx.mk 0) []) = .ok [] := by
  constructor
  · exact c9_context_lifo.1 (ReqCtx.mk 0) (ReqCtx.mk 1) [] (by decide)
  · exact c9_context_lifo.2 (ReqCtx.mk 0) []

/-- Stage-1 router of the C10 scenario: `/p` for GET, endpoint e1. -/
def c10r1 : Router :=
  ((Router.empty false).add [Tok.lit "/p"] "e1" ["GET"] none).getD
    (Router.empty false)

/-- After re-adding `/p` with POST/e2. -/
def c10Router : Router :=
  (c10r1.add [Tok.lit "/p"] "e2" ["POST"] none).getD (Router.empty false)

/-- Counterexample for C10: after `add('/p', e1, [GET])` then
`add('/p', e2, [POST])`, the pair `('/p', GET)` — in M1 but not in M2 —
no longer resolves to e1: the second add replaced the whole per-path
method map, so GET now yields a 405 whose allowed set is `POST` only. -/
theorem c10_counterexample :
    c10Router.matchRoute "/p" "GET" = .error (.http (.methodNotAllowed
      (.pystr "Method not allowed. Allowed methods: POST")
      mnaDefaultDescription)) ∧
    decide (c10Router.matchRoute "/p" "GET" = .ok ("e1", [])) = false := by
  exact ⟨rfl, by decide⟩

/-- Claim C10 as amended: re-adding a static rule replaces the *entire* method map
stored under that path — the new entry holds exactly the re-registered
methods, a method not re-registered now draws a 405 built from the new
method set alone — while every other path's behaviour is untouched. -/
theorem c10_static_readd_replaces_whole_entry (r0 : Router) (toks : List Tok)
    (e2 : String) (M2 : List String) (d2 : Option (List (String × PVal)))
    (path m : String) (p2 : List Seg) (f2 : List (String × FilterKind))
    (r : Router)
    (hstrict : r0.strict_order = false)
    (hc : compileTokens toks = some (p2, f2, true))
    (hpath : renderRule toks = path)
    (hadd : r0.add toks e2 M2 d2 = some r) :
    pyGet r.static_routes path =
      some (mkMethodMap M2 (RuleArgs.mk e2 path f2 p2 d2)) ∧
    (M2 ≠ [] → (m ∈ M2.map upperStr → False) →
      r.matchRoute path m = .error (.http (.methodNotAllowed
        (.pystr (allowMsg (mkMethodMap M2 (RuleArgs.mk e2 path f2 p2 d2))))
        mnaDefaultDescription))) ∧
    (∀ (q m1 : String), (q = path → False) →
      r.matchRoute q m1 = r0.matchRoute q m1) := by
  have heq := add_static_eq r0 toks e2 M2 d2 p2 f2 hc hstrict
  rw [hadd] at heq
  have hr : r = Router.mk
      (pySet r0.static_routes (renderRule toks)
        (mkMethodMap M2 (RuleArgs.mk e2 (renderRule toks) f2 p2 d2)))
      r0.dynamic r0.strict_order :=
    Option.some.inj heq
  subst hpath
  constructor
  · rw [hr]
    simp only
    rw [pyGet_pySet, if_pos rfl]
  constructor
  · intro hM2 hnm
    obtain ⟨m0, hm0⟩ := List.exists_mem_of_ne_nil M2 hM2
    set ra2 := RuleArgs.mk e2 (renderRule toks) f2 p2 d2 with hra2
    have hstat : pyGet r.static_routes (renderRule toks) =
        some (mkMethodMap M2 ra2) := by
      rw [hr]
      simp only
      rw [pyGet_pySet, if_pos rfl]
    have hne : (mkMethodMap M2 ra2).isEmpty = false :=
      mkMethodMap_ne_nil M2 ra2 (upperStr m0) (List.mem_map_of_mem upperStr hm0)
    have hnone : pyGet (mkMethodMap M2 ra2) m = none := by
      cases hsome : pyGet (mkMethodMap M2 ra2) m with
      | none => rfl
      | some x =>
          exfalso
          refine hnm ((mkMethodMap_key M2 ra2 m).mp ?_)
          rw [hsome]
          rfl
    exact matchRoute_static_mna r (renderRule toks) m (mkMethodMap M2 ra2)
      hstat hne hnone
  · intro q m1 hq
    refine matchRoute_congr r r0 q m1 ?_ ?_
    · rw [hr]
      simp only
      rw [pyGet_pySet, if_neg (fun h => hq h.symm)]
    · rw [hr]

/-- Witness for C10: the dropped (path, method) pair answers 405 with the
new method set, and an unrelated path behaves as before the re-add. -/
theorem c10_static_readd_witness :
    pyGet c10Router.static_routes "/p" =
      some (mkMethodMap ["POST"] (RuleArgs.mk "e2" "/p" [] [Seg.slit "/p"] none)) ∧
    c10Router.matchRoute "/p" "GET" = .error (.http (.methodNotAllowed
      (.pystr (allowMsg (mkMethodMap ["POST"]
        (RuleArgs.mk "e2" "/p" [] [Seg.slit "/p"] none))))
      mnaDefaultDescription)) ∧
    c10Router.matchRoute "/q" "GET" = c10r1.matchRoute "/q" "GET" := by
  have h := c10_static_readd_replaces_whole_entry c10r1 [Tok.lit "/p"] "e2"
    ["POST"] none "/p" "GET" [Seg.slit "/p"] [] c10Router rfl rfl rfl rfl
  exact ⟨h.1, h.2.1 (by decide) (by decide), h.2.2 "/q" "GET" (by decide)⟩

end Cocopot
